import Mathlib

/-!
Verification of the core of the Workbench CRM SDK (workbench-sdk-node):
the webhook signature verification module (`src/utils/webhook-verify.ts`)
and the request execution engine (`src/client.ts`).

The TypeScript source is shallowly embedded: pure functions become Lean
functions, the retry loop becomes a recursive function over an explicit
sequence of per-attempt transport outcomes, exceptions become `Except`,
and `Date.now()` becomes an explicit `now` parameter.  JavaScript numbers
are modelled as exact integers (`Int`/`Nat`); JSON text values are modelled
as exact decimal components rather than IEEE floats (no claim inspects a
numeric value).
-/

namespace WorkbenchSDK

/-! ## JSON values and a model of JavaScript `JSON.parse` -/

/-- JSON values as produced by `JSON.parse`.  Numbers are kept as their
exact decimal components (sign-carrying integer part, fraction digits,
exponent) instead of IEEE doubles; no property proved here inspects a
numeric value. -/
inductive Json where
  | null
  | bool (b : Bool)
  | num (intPart : Int) (fracDigits : List Nat) (expPart : Int)
  | str (s : String)
  | arr (elems : List Json)
  | obj (fields : List (String × Json))

/-- JSON whitespace accepted between tokens by `JSON.parse`. -/
def jsonWs (c : Char) : Bool :=
  c == ' ' || c == '\t' || c == '\n' || c == '\r'

/-- Drop leading JSON whitespace. -/
def skipWs (l : List Char) : List Char :=
  l.dropWhile jsonWs

/-- Decimal digit test on characters. -/
def isDigitCh (c : Char) : Bool :=
  decide (48 ≤ c.toNat) && decide (c.toNat ≤ 57)

/-- Hexadecimal digit value of a character, for `\uXXXX` escapes. -/
def hexVal (c : Char) : Option Nat :=
  if isDigitCh c then some (c.toNat - 48)
  else if decide (97 ≤ c.toNat) && decide (c.toNat ≤ 102) then some (c.toNat - 87)
  else if decide (65 ≤ c.toNat) && decide (c.toNat ≤ 70) then some (c.toNat - 55)
  else none

/-- Numeric value of a list of decimal digit characters. -/
def digitsVal (l : List Char) : Nat :=
  l.foldl (fun a c => a * 10 + (c.toNat - 48)) 0

/-- Parse the body of a JSON string literal (the opening quote already
consumed), returning the decoded characters and the remaining input.
`\uXXXX` escapes naming a surrogate code unit are approximated by
`Char.ofNat`'s fallback (JS strings may hold lone surrogates, Lean `Char`
cannot); raw control characters are rejected as `JSON.parse` does. -/
def parseJStringBody : Nat → List Char → Option (List Char × List Char)
  | 0, _ => none
  | _, [] => none
  | fuel + 1, c :: rest =>
    if c = '"' then some ([], rest)
    else if c = '\\' then
      match rest with
      | [] => none
      | e :: rest1 =>
        let esc : Option (Char × List Char) :=
          if e = '"' then some ('"', rest1)
          else if e = '\\' then some ('\\', rest1)
          else if e = '/' then some ('/', rest1)
          else if e = 'b' then some ('\x08', rest1)
          else if e = 'f' then some ('\x0c', rest1)
          else if e = 'n' then some ('\n', rest1)
          else if e = 'r' then some ('\r', rest1)
          else if e = 't' then some ('\t', rest1)
          else if e = 'u' then
            match rest1 with
            | h1 :: h2 :: h3 :: h4 :: rest2 =>
              match hexVal h1, hexVal h2, hexVal h3, hexVal h4 with
              | some a, some b, some c2, some d =>
                some (Char.ofNat (((a * 16 + b) * 16 + c2) * 16 + d), rest2)
              | _, _, _, _ => none
            | _ => none
          else none
        match esc with
        | some (ch, rest2) =>
          (parseJStringBody fuel rest2).map (fun p => (ch :: p.1, p.2))
        | none => none
    else if c.toNat < 32 then none
    else (parseJStringBody fuel rest).map (fun p => (c :: p.1, p.2))

/-- Parse a JSON number (grammar `-? (0 | [1-9][0-9]*) (. [0-9]+)? ([eE][+-]?[0-9]+)?`). -/
def parseJNumber (l : List Char) : Option (Json × List Char) :=
  let signed : Bool × List Char :=
    match l with
    | '-' :: r => (true, r)
    | _ => (false, l)
  let intDigits := signed.2.takeWhile isDigitCh
  let rest1 := signed.2.drop intDigits.length
  if intDigits = [] then none
  else if 1 < intDigits.length ∧ intDigits.headD '0' = '0' then none
  else
    let fracParsed : Option (List Nat × List Char) :=
      match rest1 with
      | '.' :: r =>
        let fd := r.takeWhile isDigitCh
        if fd = [] then none else some (fd.map (fun c => c.toNat - 48), r.drop fd.length)
      | _ => some ([], rest1)
    match fracParsed with
    | none => none
    | some (frac, rest2) =>
      let expParsed : Option (Int × List Char) :=
        match rest2 with
        | 'e' :: r => parseExpTail r
        | 'E' :: r => parseExpTail r
        | _ => some (0, rest2)
      match expParsed with
      | none => none
      | some (ex, rest3) =>
        let iv : Int := Int.ofNat (digitsVal intDigits)
        some (.num (if signed.1 then -iv else iv) frac ex, rest3)
where
  /-- Parse the digits (with optional sign) after an `e`/`E` marker. -/
  parseExpTail (r : List Char) : Option (Int × List Char) :=
    let signedE : Bool × List Char :=
      match r with
      | '-' :: r2 => (true, r2)
      | '+' :: r2 => (false, r2)
      | _ => (false, r)
    let ed := signedE.2.takeWhile isDigitCh
    if ed = [] then none
    else
      let ev : Int := Int.ofNat (digitsVal ed)
      some ((if signedE.1 then -ev else ev), signedE.2.drop ed.length)

mutual

/-- Parse one JSON value (leading whitespace allowed), fuel-bounded. -/
def parseJValue : Nat → List Char → Option (Json × List Char)
  | 0, _ => none
  | fuel + 1, l =>
    match skipWs l with
    | [] => none
    | 't' :: 'r' :: 'u' :: 'e' :: r => some (.bool true, r)
    | 'f' :: 'a' :: 'l' :: 's' :: 'e' :: r => some (.bool false, r)
    | 'n' :: 'u' :: 'l' :: 'l' :: r => some (.null, r)
    | '"' :: r => (parseJStringBody (fuel + 1) r).map (fun p => (.str ⟨p.1⟩, p.2))
    | '[' :: r =>
      (match skipWs r with
      | ']' :: r2 => some (.arr [], r2)
      | _ => (parseJElems fuel r).map (fun p => (.arr p.1, p.2)))
    | '\x7b' :: r =>
      (match skipWs r with
      | '\x7d' :: r2 => some (.obj [], r2)
      | _ => (parseJMembers fuel r).map (fun p => (.obj p.1, p.2)))
    | c :: r =>
      if c = '-' ∨ isDigitCh c then parseJNumber (c :: r) else none

/-- Parse the comma-separated elements of a non-empty JSON array,
up to and including the closing bracket. -/
def parseJElems : Nat → List Char → Option (List Json × List Char)
  | 0, _ => none
  | fuel + 1, l =>
    match parseJValue fuel l with
    | none => none
    | some (v, r) =>
      match skipWs r with
      | ',' :: r2 => (parseJElems fuel r2).map (fun p => (v :: p.1, p.2))
      | ']' :: r2 => some ([v], r2)
      | _ => none

/-- Parse the comma-separated members of a non-empty JSON object,
up to and including the closing brace. -/
def parseJMembers : Nat → List Char → Option (List (String × Json) × List Char)
  | 0, _ => none
  | fuel + 1, l =>
    match skipWs l with
    | '"' :: r =>
      (match parseJStringBody (fuel + 1) r with
      | none => none
      | some (k, r2) =>
        match skipWs r2 with
        | ':' :: r3 =>
          (match parseJValue fuel r3 with
          | none => none
          | some (v, r4) =>
            match skipWs r4 with
            | ',' :: r5 => (parseJMembers fuel r5).map (fun p => ((⟨k⟩, v) :: p.1, p.2))
            | '\x7d' :: r5 => some ([(⟨k⟩, v)], r5)
            | _ => none)
        | _ => none)
    | _ => none

end

/-- Model of JavaScript `JSON.parse`: parse one value, then require only
trailing whitespace.  The fuel `4 * (length + 1)` strictly exceeds the
number of recursive calls any input can trigger (every cycle through the
mutual parsers consumes at least one input character and has length at
most three), so the bound never causes a spurious failure. -/
def jsonParse (s : String) : Option Json :=
  match parseJValue (4 * (s.length + 1)) s.data with
  | some (v, rest) => if skipWs rest = [] then some v else none
  | none => none

/-- Property access `obj[key]` on a parsed JSON value: JavaScript object
literals resolve duplicate keys by letting the last occurrence win, and
property access on a non-object JSON value yields `undefined` (`none`). -/
def jGet (j : Json) (key : String) : Option Json :=
  match j with
  | .obj fields => ((fields.filter (fun kv => kv.1 == key)).getLast?).map (fun kv => kv.2)
  | _ => none

/-- Extract a string-typed JSON value (`undefined` otherwise). -/
def jStrVal : Option Json → Option String
  | some (.str s) => some s
  | _ => none

/-! ## `Buffer.from(s, 'utf8')`: UTF-8 encoding of strings as byte lists -/

/-- The UTF-8 encoding of a single Unicode scalar value, written with
division/remainder arithmetic (equivalent to the usual shift/mask form on
the relevant ranges).  Models how Node's `Buffer.from(·, 'utf8')` encodes
each character. -/
def utf8EncodeCharBytes (c : Char) : List Nat :=
  let n := c.toNat
  if n < 128 then [n]
  else if n < 2048 then [192 + n / 64, 128 + n % 64]
  else if n < 65536 then [224 + n / 4096, 128 + (n / 64) % 64, 128 + n % 64]
  else [240 + n / 262144, 128 + (n / 4096) % 64, 128 + (n / 64) % 64, 128 + n % 64]

/-- `Buffer.from(s, 'utf8')` as a list of byte values. -/
def utf8Bytes (s : String) : List Nat :=
  s.data.flatMap utf8EncodeCharBytes

/-- Node's `crypto.timingSafeEqual` on two equal-length byte buffers:
constant-time in the source, value-level equality in the model. -/
def timingSafeEqual (a b : List Nat) : Bool :=
  a == b

/-! ## SHA-256 and HMAC-SHA256 (Node `crypto.createHmac('sha256', ·)`) -/

/-- Truncate to a 32-bit word. -/
def w32 (n : Nat) : Nat := n % 4294967296

/-- Right-rotation of a 32-bit word by `n` bits. -/
def rotr32 (n x : Nat) : Nat :=
  w32 (x / 2 ^ n + x % 2 ^ n * 2 ^ (32 - n))

/-- The SHA-256 round constants (first 32 bits of the fractional parts of
the cube roots of the first 64 primes). -/
def sha256K : List Nat :=
  [1116352408, 1899447441, 3049323471, 3921009573, 961987163, 1508970993, 2453635748, 2870763221,
   3624381080, 310598401, 607225278, 1426881987, 1925078388, 2162078206, 2614888103, 3248222580,
   3835390401, 4022224774, 264347078, 604807628, 770255983, 1249150122, 1555081692, 1996064986,
   2554220882, 2821834349, 2952996808, 3210313671, 3336571891, 3584528711, 113926993, 338241895,
   666307205, 773529912, 1294757372, 1396182291, 1695183700, 1986661051, 2177026350, 2456956037,
   2730485921, 2820302411, 3259730800, 3345764771, 3516065817, 3600352804, 4094571909, 275423344,
   430227734, 506948616, 659060556, 883997877, 958139571, 1322822218, 1537002063, 1747873779,
   1955562222, 2024104815, 2227730452, 2361852424, 2428436474, 2756734187, 3204031479, 3329325298]

/-- The SHA-256 initial hash value. -/
def sha256H0 : List Nat :=
  [1779033703, 3144134277, 1013904242, 2773480762, 1359893119, 2600822924, 528734635, 1541459225]

/-- A big-endian 4-byte rendering of a 32-bit word. -/
def beBytes4 (n : Nat) : List Nat :=
  [n / 16777216 % 256, n / 65536 % 256, n / 256 % 256, n % 256]

/-- A big-endian 8-byte rendering of the 64-bit message bit length. -/
def beBytes8 (n : Nat) : List Nat :=
  [n / 72057594037927936 % 256, n / 281474976710656 % 256, n / 1099511627776 % 256,
   n / 4294967296 % 256, n / 16777216 % 256, n / 65536 % 256, n / 256 % 256, n % 256]

/-- SHA-256 padding: append `0x80`, zero bytes to 56 mod 64, and the
64-bit big-endian bit length. -/
def sha256Pad (msg : List Nat) : List Nat :=
  let len := msg.length
  let zeros := (64 - (len + 9) % 64) % 64
  msg ++ 128 :: List.replicate zeros 0 ++ beBytes8 (len * 8)

/-- Group a byte list into big-endian 32-bit words. -/
def bytesToWordsBE : List Nat → List Nat
  | b0 :: b1 :: b2 :: b3 :: rest => (((b0 * 256 + b1) * 256 + b2) * 256 + b3) :: bytesToWordsBE rest
  | _ => []

/-- Split a word list into 16-word blocks (fuel-bounded structural
recursion; the fuel is the list length, which strictly exceeds the number
of nonempty 16-word blocks). -/
def chunk16Aux : Nat → List Nat → List (List Nat)
  | 0, _ => []
  | _, [] => []
  | fuel + 1, w :: ws => (w :: ws).take 16 :: chunk16Aux fuel ((w :: ws).drop 16)

/-- Split a word list into 16-word blocks. -/
def chunk16 (ws : List Nat) : List (List Nat) :=
  chunk16Aux ws.length ws

/-- One step of the SHA-256 message-schedule extension: append
`w[i-16] + σ0(w[i-15]) + w[i-7] + σ1(w[i-2])` for the next index `i`. -/
def sha256ExtendStep (w : List Nat) : List Nat :=
  let n := w.length
  let w15 := w.getD (n - 15) 0
  let w2 := w.getD (n - 2) 0
  let s0 := rotr32 7 w15 ^^^ rotr32 18 w15 ^^^ w15 / 8
  let s1 := rotr32 17 w2 ^^^ rotr32 19 w2 ^^^ w2 / 1024
  w ++ [w32 (w.getD (n - 16) 0 + s0 + w.getD (n - 7) 0 + s1)]

/-- Extend a 16-word block to the full 64-word message schedule. -/
def sha256Schedule (block : List Nat) : List Nat :=
  (List.range 48).foldl (fun w _ => sha256ExtendStep w) block

/-- The eight SHA-256 working variables. -/
structure Sha256State where
  a : Nat
  b : Nat
  c : Nat
  d : Nat
  e : Nat
  f : Nat
  g : Nat
  h : Nat

/-- One SHA-256 compression round, consuming one `(k, w)` pair. -/
def sha256Round (st : Sha256State) (kw : Nat × Nat) : Sha256State :=
  let S1 := rotr32 6 st.e ^^^ rotr32 11 st.e ^^^ rotr32 25 st.e
  let ch := (st.e &&& st.f) ^^^ ((st.e ^^^ 4294967295) &&& st.g)
  let temp1 := w32 (st.h + S1 + ch + kw.1 + kw.2)
  let S0 := rotr32 2 st.a ^^^ rotr32 13 st.a ^^^ rotr32 22 st.a
  let maj := (st.a &&& st.b) ^^^ (st.a &&& st.c) ^^^ (st.b &&& st.c)
  let temp2 := w32 (S0 + maj)
  ⟨w32 (temp1 + temp2), st.a, st.b, st.c, w32 (st.d + temp1), st.e, st.f, st.g⟩

/-- Compress one 16-word block into the running hash value. -/
def sha256Compress (hs : List Nat) (block : List Nat) : List Nat :=
  let ws := sha256Schedule block
  let init : Sha256State :=
    ⟨hs.getD 0 0, hs.getD 1 0, hs.getD 2 0, hs.getD 3 0,
     hs.getD 4 0, hs.getD 5 0, hs.getD 6 0, hs.getD 7 0⟩
  let fin := (sha256K.zip ws).foldl sha256Round init
  [w32 (hs.getD 0 0 + fin.a), w32 (hs.getD 1 0 + fin.b), w32 (hs.getD 2 0 + fin.c),
   w32 (hs.getD 3 0 + fin.d), w32 (hs.getD 4 0 + fin.e), w32 (hs.getD 5 0 + fin.f),
   w32 (hs.getD 6 0 + fin.g), w32 (hs.getD 7 0 + fin.h)]

/-- SHA-256 of a byte list, as a 32-byte list. -/
def sha256 (msg : List Nat) : List Nat :=
  let blocks := chunk16 (bytesToWordsBE (sha256Pad msg))
  (blocks.foldl sha256Compress sha256H0).flatMap beBytes4

/-- HMAC-SHA256 (RFC 2104 with SHA-256, block size 64 bytes), the digest
computed by Node's `createHmac('sha256', secret).update(msg)`. -/
def hmacSha256 (key msg : List Nat) : List Nat :=
  let k0 := if 64 < key.length then sha256 key else key
  let k1 := k0 ++ List.replicate (64 - k0.length) 0
  let ipadKey := k1.map (fun b => b ^^^ 54)
  let opadKey := k1.map (fun b => b ^^^ 92)
  sha256 (opadKey ++ sha256 (ipadKey ++ msg))

/-- The lowercase hexadecimal digit characters, as produced by Node's
`digest('hex')`. -/
def hexDigit (n : Nat) : Char :=
  match n with
  | 0 => '0' | 1 => '1' | 2 => '2' | 3 => '3' | 4 => '4' | 5 => '5' | 6 => '6' | 7 => '7'
  | 8 => '8' | 9 => '9' | 10 => 'a' | 11 => 'b' | 12 => 'c' | 13 => 'd' | 14 => 'e' | 15 => 'f'
  | _ => '0'

/-- Lowercase hex encoding of a byte list (`digest('hex')`). -/
def hexStr (bs : List Nat) : String :=
  ⟨bs.flatMap (fun b => [hexDigit (b / 16), hexDigit (b % 16)])⟩

/-! ## Webhook signature verification (`src/utils/webhook-verify.ts`) -/

/-- The distinct failure modes of `WebhookVerificationError`, one
constructor per `throw` site (the TypeScript class carries only a
message; the stale case records the `age`/`tolerance` the message
interpolates). -/
inductive WebhookError where
  /-- `'Missing or invalid signature header'` -/
  | missingHeader
  /-- `'Invalid timestamp in signature header'` -/
  | invalidTimestamp
  /-- `'Invalid signature header format'` -/
  | invalidFormat
  /-- `'Webhook timestamp is too old (<age> seconds). Maximum allowed age is <tolerance> seconds.'` -/
  | staleTimestamp (age tolerance : Int)
  /-- `'Webhook timestamp is in the future. Check your server clock.'` -/
  | futureTimestamp
  /-- `'Invalid webhook signature'` -/
  | invalidSignature
  /-- `'Invalid webhook payload: not valid JSON'` -/
  | invalidPayload
deriving DecidableEq

/-- Parsed webhook signature components (`WebhookSignature` in the source). -/
structure WebhookSignature where
  timestamp : Int
  signature : String
deriving DecidableEq

/-- JavaScript `String.prototype.split` with a single-character separator:
`""` splits to `[""]`, separators at the ends produce empty fields. -/
def splitOnChar (sep : Char) : List Char → List (List Char)
  | [] => [[]]
  | c :: cs =>
    let rest := splitOnChar sep cs
    if c = sep then [] :: rest
    else
      match rest with
      | [] => [[c]]
      | r :: rs => (c :: r) :: rs

/-- JavaScript whitespace skipped by `parseInt` (the common ASCII set;
`parseInt` also skips some exotic Unicode spaces, which no claim uses). -/
def jsWhitespace (c : Char) : Bool :=
  c == ' ' || c == '\t' || c == '\n' || c == '\r' || c == '\x0b' || c == '\x0c'

/-- JavaScript `parseInt(value, 10)` where `value` may be `undefined`
(`none`): skip leading whitespace, take an optional sign and then the
longest prefix of decimal digits; `NaN` (here `none`) when that prefix is
empty.  Trailing non-digit characters are ignored, exactly as `parseInt`
ignores them.  `parseInt(undefined, 10)` coerces to the string
`"undefined"`, which has no digit prefix, hence `NaN`. -/
def jsParseInt10 : Option (List Char) → Option Int
  | none => none
  | some s =>
    let s1 := s.dropWhile jsWhitespace
    let signed : Bool × List Char :=
      match s1 with
      | '-' :: r => (true, r)
      | '+' :: r => (false, r)
      | _ => (false, s1)
    let digits := signed.2.takeWhile isDigitCh
    if digits = [] then none
    else
      let v : Int := Int.ofNat (digitsVal digits)
      some (if signed.1 then -v else v)

/-- The `[key, value] = part.split('=')` destructuring: the key is the
first `=`-separated piece (always present), the value the second
(`undefined` when the part contains no `=`). -/
def headerKV (part : List Char) : List Char × Option (List Char) :=
  let pieces := splitOnChar '=' part
  (pieces.headD [], pieces[1]?)

/-- The `for (const part of parts)` loop of `parseSignatureHeader`,
threading the mutable `timestamp` and `signature` bindings: a `t` key
re-parses (throwing on `NaN`), a `v1` key overwrites the signature with
the part's value (possibly `undefined`), every other key is ignored. -/
def parseHeaderLoop :
    List (List Char) → Option Int → Option (List Char) →
    Except WebhookError (Option Int × Option (List Char))
  | [], ts, sg => .ok (ts, sg)
  | part :: rest, ts, sg =>
    let kv := headerKV part
    if kv.1 = ['t'] then
      match jsParseInt10 kv.2 with
      | none => .error .invalidTimestamp
      | some n => parseHeaderLoop rest (some n) sg
    else if kv.1 = ['v', '1'] then parseHeaderLoop rest ts kv.2
    else parseHeaderLoop rest ts sg

/-- `parseSignatureHeader` from `webhook-verify.ts`: reject an empty
header, split on commas, run the key/value loop, and reject a missing
timestamp or a missing/empty signature (`!signature`). -/
def parseSignatureHeader (header : String) : Except WebhookError WebhookSignature :=
  if header = "" then .error .missingHeader
  else
    match parseHeaderLoop (splitOnChar ',' header.data) none none with
    | .error e => .error e
    | .ok (ts, sg) =>
      match ts, sg with
      | some t, some s => if s = [] then .error .invalidFormat else .ok ⟨t, ⟨s⟩⟩
      | _, _ => .error .invalidFormat

/-- The `t`-keyed values of the split header parts, in order. -/
def tValues (parts : List (List Char)) : List (Option (List Char)) :=
  parts.filterMap (fun part => if (headerKV part).1 = ['t'] then some (headerKV part).2 else none)

/-- The `v1`-keyed values of the split header parts, in order. -/
def v1Values (parts : List (List Char)) : List (Option (List Char)) :=
  parts.filterMap (fun part => if (headerKV part).1 = ['v', '1'] then some (headerKV part).2 else none)

/-- The parsing contract as amended: fail on an empty header; fail with
the timestamp error when any `t`-keyed value has no integer prefix under
`parseInt`; otherwise the last `t` occurrence and the last `v1`
occurrence win, failing with the format error when no `t` component
exists or the last `v1` value is absent or empty; all other keys are
ignored. -/
def parseHeaderSpec (header : String) : Except WebhookError WebhookSignature :=
  if header = "" then .error .missingHeader
  else
    let parts := splitOnChar ',' header.data
    if (tValues parts).any (fun v => (jsParseInt10 v).isNone) then .error .invalidTimestamp
    else
      match (tValues parts).getLast?, (v1Values parts).getLast? with
      | some tv, some (some sv) =>
        if sv = [] then .error .invalidFormat
        else
          match jsParseInt10 tv with
          | some t => .ok ⟨t, ⟨sv⟩⟩
          | none => .error .invalidTimestamp
      | _, _ => .error .invalidFormat

/-- `computeSignature` from `webhook-verify.ts`: the lowercase hex HMAC-SHA256
digest of the canonical signed string `"<timestamp>.<payload>"` keyed by the
secret.  The payload is taken as a string (the `Buffer` overload is the same
bytes); the timestamp renders in decimal as JavaScript template interpolation
does for integral numbers. -/
def computeSignature (payload secret : String) (timestamp : Int) : String :=
  hexStr (hmacSha256 (utf8Bytes secret) (utf8Bytes (toString timestamp ++ "." ++ payload)))

/-- The digest-comparison tail of `verifyWebhookSignature`: compute the
expected signature, compare UTF-8 buffers (length first, then
`timingSafeEqual`), and return `true` on match. -/
def verifyDigest (payload secret : String) (timestamp : Int)
    (providedSignature : String) : Except WebhookError Bool :=
  let expectedSignature := computeSignature payload secret timestamp
  let expectedBuffer := utf8Bytes expectedSignature
  let providedBuffer := utf8Bytes providedSignature
  if expectedBuffer.length ≠ providedBuffer.length then .error .invalidSignature
  else if timingSafeEqual expectedBuffer providedBuffer = false then .error .invalidSignature
  else .ok true

/-- `verifyWebhookSignature` from `webhook-verify.ts`.  `tolerance` is the
`options.tolerance` value (the source defaults it to 300); `now` is the
wall clock `Math.floor(Date.now() / 1000)`, passed explicitly. -/
def verifyWebhookSignature (payload signature secret : String)
    (tolerance now : Int) : Except WebhookError Bool :=
  match parseSignatureHeader signature with
  | .error e => .error e
  | .ok parsed =>
    if 0 < tolerance then
      let age := now - parsed.timestamp
      if tolerance < age then .error (.staleTimestamp age tolerance)
      else if age < -tolerance then .error .futureTimestamp
      else verifyDigest payload secret parsed.timestamp parsed.signature
    else verifyDigest payload secret parsed.timestamp parsed.signature

/-- `constructWebhookEvent` from `webhook-verify.ts`: verify the signature,
then `JSON.parse` the payload, converting a parse failure into the
`'Invalid webhook payload: not valid JSON'` error. -/
def constructWebhookEvent (payload signature secret : String)
    (tolerance now : Int) : Except WebhookError Json :=
  match verifyWebhookSignature payload signature secret tolerance now with
  | .error e => .error e
  | .ok _ =>
    match jsonParse payload with
    | some v => .ok v
    | none => .error .invalidPayload

/-! ## The request executor (`src/client.ts`, `WorkbenchClient.request`)

Each attempt's transport-level outcome is supplied as a function
`attempts : Nat → AttemptOutcome` (the environment the `fetch` calls
observe); the retry loop is then a deterministic recursion.  The executor
result records, besides the value or error surfaced to the caller, how
many attempts were made and the list of backoff sleeps in order. -/

/-- What one `fetch` attempt produces: a completed HTTP response with its
status and body text, an abort (the per-attempt timeout fired, `fetch`
rejects with `AbortError`), or another network error. -/
inductive AttemptOutcome where
  | response (status : Nat) (bodyText : String)
  | abortError
  | networkError (msg : String)

/-- The normalized error surfaced by `WorkbenchError` in the source:
message, HTTP status (0 for transport-level failures), machine code, and
the optional details / request-id extracted from the error envelope. -/
structure WorkbenchError where
  message : String
  status : Nat
  code : String
  details : Option Json
  requestId : Option Json

/-- What `request` can throw: a `WorkbenchError`, or (only when the last
attempt failed with a non-abort network error) the raw `Error` rethrown
as-is. -/
inductive RequestFailure where
  | api (e : WorkbenchError)
  | plain (msg : String)

/-- `WorkbenchClient.isRetryable`: rate limiting (429) and server errors
(5xx). -/
def isRetryable (status : Nat) : Bool :=
  status == 429 || (decide (500 ≤ status) && decide (status < 600))

/-- `WorkbenchClient.getRetryDelay`: exponential backoff
`min(1000 * 2^attempt, 10000)`. -/
def getRetryDelay (attempt : Nat) : Nat :=
  min (1000 * 2 ^ attempt) 10000

/-- `response.ok` per the Fetch specification: status in the range 200–299. -/
def httpOk (status : Nat) : Bool :=
  decide (200 ≤ status) && decide (status < 300)

/-- `responseText ? JSON.parse(responseText) : {}`: an empty body text is
the empty object; otherwise the body must parse as JSON. -/
def parsedBody (bodyText : String) : Option Json :=
  if bodyText = "" then some (.obj []) else jsonParse bodyText

/-- The `WorkbenchError('Invalid JSON response from API', status, 'INVALID_RESPONSE')`
thrown when a response body fails to parse. -/
def invalidResponseError (status : Nat) : WorkbenchError :=
  ⟨"Invalid JSON response from API", status, "INVALID_RESPONSE", none, none⟩

/-- The `WorkbenchError('Request timeout', 0, 'TIMEOUT')` recorded when an
attempt is aborted by its deadline. -/
def timeoutError : WorkbenchError :=
  ⟨"Request timeout", 0, "TIMEOUT", none, none⟩

/-- The `WorkbenchError('Request failed', 0, 'UNKNOWN_ERROR')` of the
unreachable post-loop `throw lastError || ...` fallback. -/
def unknownFailure : RequestFailure :=
  .api ⟨"Request failed", 0, "UNKNOWN_ERROR", none, none⟩

/-- Extraction of the error envelope fields, as in the `WorkbenchError`
constructor call of `request`: `error.message` / `error.code` fall back to
`'Unknown error'` / `'UNKNOWN_ERROR'` when absent or falsy (the typed API
contract makes them strings, so only string envelope fields are read);
`error.details` and `meta.request_id` pass through as-is. -/
def normalizeError (status : Nat) (body : Json) : WorkbenchError :=
  let errObj := jGet body "error"
  let message :=
    match jStrVal (errObj.bind (fun e => jGet e "message")) with
    | some m => if m = "" then "Unknown error" else m
    | none => "Unknown error"
  let code :=
    match jStrVal (errObj.bind (fun e => jGet e "code")) with
    | some c => if c = "" then "UNKNOWN_ERROR" else c
    | none => "UNKNOWN_ERROR"
  ⟨message, status, code, errObj.bind (fun e => jGet e "details"),
   (jGet body "meta").bind (fun m => jGet m "request_id")⟩

/-- How the `try` block classifies one attempt, before any retry decision:
read the body text and parse it (throwing `INVALID_RESPONSE` on a parse
failure), return the parsed body on an ok status, and otherwise normalize
the error envelope; an abort is a timeout, any other rejection a network
error. -/
inductive AttemptClass where
  | success (v : Json)
  | invalidResponse (status : Nat)
  | httpError (status : Nat) (e : WorkbenchError)
  | timeout
  | netError (msg : String)

/-- Classify one attempt outcome (the body of the `try` block up to the
retry decision). -/
def classify : AttemptOutcome → AttemptClass
  | .response status bodyText =>
    (match parsedBody bodyText with
    | none => .invalidResponse status
    | some v =>
      if httpOk status then .success v
      else .httpError status (normalizeError status v))
  | .abortError => .timeout
  | .networkError m => .netError m

/-- The observable result of one `request` call: the surfaced value or
failure, the number of attempts made, and the backoff sleeps in order. -/
structure RunResult where
  result : Except RequestFailure Json
  numAttempts : Nat
  sleeps : List Nat

/-- The `for (let attempt = 0; attempt <= this.maxRetries; attempt++)`
loop of `request`.  Arguments: current attempt index, remaining loop
iterations (`maxRetries + 1 - attempt` at every reachable call), and the
`lastError` binding (consulted only by the post-loop fallback).  A thrown
`WorkbenchError` — parse failure, non-retryable HTTP error, or HTTP error
on the final attempt — is rethrown by the `catch` immediately; a timeout
or network error on the final attempt falls out of the loop and surfaces
`lastError`. -/
def runLoop (attempts : Nat → AttemptOutcome) (maxRetries : Nat) :
    Nat → Nat → Option RequestFailure → RunResult
  | _, 0, lastError => ⟨.error (lastError.getD unknownFailure), 0, []⟩
  | attempt, rem + 1, lastError =>
    match classify (attempts attempt) with
    | .success v => ⟨.ok v, 1, []⟩
    | .invalidResponse status => ⟨.error (.api (invalidResponseError status)), 1, []⟩
    | .httpError status e =>
      if isRetryable status && decide (attempt < maxRetries) then
        let tail := runLoop attempts maxRetries (attempt + 1) rem lastError
        ⟨tail.result, tail.numAttempts + 1, getRetryDelay attempt :: tail.sleeps⟩
      else ⟨.error (.api e), 1, []⟩
    | .timeout =>
      if attempt < maxRetries then
        let tail := runLoop attempts maxRetries (attempt + 1) rem (some (.api timeoutError))
        ⟨tail.result, tail.numAttempts + 1, getRetryDelay attempt :: tail.sleeps⟩
      else ⟨.error (.api timeoutError), 1, []⟩
    | .netError m =>
      if attempt < maxRetries then
        let tail := runLoop attempts maxRetries (attempt + 1) rem (some (.plain m))
        ⟨tail.result, tail.numAttempts + 1, getRetryDelay attempt :: tail.sleeps⟩
      else ⟨.error (.plain m), 1, []⟩

/-- `WorkbenchClient.request` with a given `maxRetries` configuration,
run against the attempt outcomes `attempts`. -/
def runRequest (maxRetries : Nat) (attempts : Nat → AttemptOutcome) : RunResult :=
  runLoop attempts maxRetries 0 (maxRetries + 1) none

/-- The error a completed (non-ok) response normalizes to: the parsed
envelope's fields, or `INVALID_RESPONSE` when the body does not parse. -/
def attemptError (status : Nat) (bodyText : String) : WorkbenchError :=
  match parsedBody bodyText with
  | none => invalidResponseError status
  | some v => normalizeError status v

/-- The failure `request` surfaces for the attempt outcome it last
observed: the normalized envelope error of a completed response, the
`TIMEOUT` error of an abort, or the raw rethrown network error. -/
def surfacedFailure : AttemptOutcome → RequestFailure
  | .response status bodyText => .api (attemptError status bodyText)
  | .abortError => .api timeoutError
  | .networkError m => .plain m

/-- An attempt outcome that fails retryably in the sense of claim C2: a
completed HTTP error response with status 429, 500, 502 or 503 whose body
is a (possibly empty) well-formed envelope, a timeout, or a network
error. -/
def RetryFailOutcome (o : AttemptOutcome) : Prop :=
  (∃ status bodyText, o = .response status bodyText ∧
    (status = 429 ∨ status = 500 ∨ status = 502 ∨ status = 503) ∧
    (parsedBody bodyText).isSome = true) ∨
  o = .abortError ∨ (∃ m, o = .networkError m)

/-! ## Client construction (`WorkbenchClient.constructor`) -/

/-- `WorkbenchConfig`: every field optional at the call site; `none`
models an omitted (`undefined`) field. -/
structure WorkbenchConfig where
  apiKey : Option String
  accessToken : Option String
  baseUrl : Option String
  timeout : Option Nat
  maxRetries : Option Nat

/-- The configuration state a constructed client holds. -/
structure ClientState where
  baseUrl : String
  timeout : Nat
  maxRetries : Nat
  authHeader : String
deriving DecidableEq

/-- JavaScript truthiness for an optional string: `undefined` and `""`
are falsy. -/
def truthyStr : Option String → Bool
  | none => false
  | some s => s != ""

/-- `a || b` on optional strings (JavaScript `||` picks `b` whenever `a`
is falsy). -/
def orElseStr (a : Option String) (b : String) : String :=
  match a with
  | some s => if s = "" then b else s
  | none => b

/-- `a || b` on optional numbers (`undefined` and `0` are falsy). -/
def orElseNat (a : Option Nat) (b : Nat) : Nat :=
  match a with
  | some n => if n = 0 then b else n
  | none => b

/-- The `WorkbenchClient` constructor: reject when neither credential is
truthy, then fill `baseUrl` / `timeout` / `maxRetries` with
`config.x || DEFAULT_X` and set the Bearer header from
`config.accessToken || config.apiKey`. -/
def mkWorkbenchClient (config : WorkbenchConfig) : Except String ClientState :=
  if !truthyStr config.apiKey && !truthyStr config.accessToken then
    .error "Either apiKey or accessToken must be provided"
  else
    .ok
      { baseUrl := orElseStr config.baseUrl "https://api.tryworkbench.app"
        timeout := orElseNat config.timeout 30000
        maxRetries := orElseNat config.maxRetries 3
        authHeader := "Bearer " ++
          orElseStr config.accessToken (orElseStr config.apiKey "") }

/-! ## Helper lemmas: UTF-8 buffers of ASCII strings -/

theorem utf8EncodeCharBytes_ascii (c : Char) (h : c.toNat < 128) :
    utf8EncodeCharBytes c = [c.toNat] := by
  simp [utf8EncodeCharBytes, h]

theorem utf8EncodeCharBytes_head_ge (c : Char) (h : 128 ≤ c.toNat) :
    ∃ b t, utf8EncodeCharBytes c = b :: t ∧ 128 ≤ b := by
  simp only [utf8EncodeCharBytes]
  split
  · omega
  · split
    · exact ⟨_, _, rfl, by omega⟩
    · split
      · exact ⟨_, _, rfl, by omega⟩
      · exact ⟨_, _, rfl, by omega⟩

theorem utf8EncodeCharBytes_ne_nil (c : Char) : utf8EncodeCharBytes c ≠ [] := by
  by_cases h : c.toNat < 128
  · rw [utf8EncodeCharBytes_ascii c h]; simp
  · obtain ⟨b, t, he, _⟩ := utf8EncodeCharBytes_head_ge c (by omega)
    rw [he]; simp

theorem char_toNat_inj {c d : Char} (h : c.toNat = d.toNat) : c = d := by
  have h2 := congrArg Char.ofNat h
  rwa [Char.ofNat_toNat, Char.ofNat_toNat] at h2

/-- UTF-8 encoding is injective on character lists whose left operand is
ASCII-only: an ASCII byte sequence decodes uniquely. -/
theorem flatMap_utf8_ascii_inj :
    ∀ (l1 l2 : List Char), (∀ c ∈ l1, c.toNat < 128) →
      l1.flatMap utf8EncodeCharBytes = l2.flatMap utf8EncodeCharBytes → l1 = l2 := by
  intro l1
  induction l1 with
  | nil =>
    intro l2 _ h
    cases l2 with
    | nil => rfl
    | cons d ds =>
      rw [List.flatMap_nil, List.flatMap_cons] at h
      exact absurd (List.append_eq_nil.mp h.symm).1 (utf8EncodeCharBytes_ne_nil d)
  | cons c cs ih =>
    intro l2 hall h
    cases l2 with
    | nil =>
      rw [List.flatMap_nil, List.flatMap_cons] at h
      exact absurd (List.append_eq_nil.mp h).1 (utf8EncodeCharBytes_ne_nil c)
    | cons d ds =>
      have hc : c.toNat < 128 := hall c (by simp)
      rw [List.flatMap_cons, List.flatMap_cons, utf8EncodeCharBytes_ascii c hc] at h
      by_cases hd : d.toNat < 128
      · rw [utf8EncodeCharBytes_ascii d hd] at h
        simp only [List.cons_append, List.nil_append, List.cons.injEq] at h
        obtain ⟨h1, h2⟩ := h
        have hcd : c = d := char_toNat_inj h1
        have htl : cs = ds := ih ds (fun x hx => hall x (by simp [hx])) h2
        rw [hcd, htl]
      · obtain ⟨b, t, he, hb⟩ := utf8EncodeCharBytes_head_ge d (by omega)
        rw [he] at h
        simp only [List.cons_append, List.nil_append, List.cons.injEq] at h
        omega

theorem string_utf8_inj_of_ascii {a b : String}
    (ha : ∀ c ∈ a.data, c.toNat < 128) (h : utf8Bytes a = utf8Bytes b) : a = b := by
  have h2 := flatMap_utf8_ascii_inj a.data b.data ha h
  cases a; cases b; exact congrArg String.mk h2

theorem hexDigit_toNat_lt (n : Nat) : (hexDigit n).toNat < 128 := by
  unfold hexDigit
  split <;> decide

theorem hexStr_ascii (bs : List Nat) : ∀ c ∈ (hexStr bs).data, c.toNat < 128 := by
  intro c hc
  have hm : c ∈ bs.flatMap (fun b => [hexDigit (b / 16), hexDigit (b % 16)]) := hc
  rw [List.mem_flatMap] at hm
  obtain ⟨b, _, hcb⟩ := hm
  simp only [List.mem_cons, List.mem_singleton] at hcb
  rcases hcb with h | h | h
  · rw [h]; exact hexDigit_toNat_lt _
  · rw [h]; exact hexDigit_toNat_lt _
  · simp at h

theorem computeSignature_ascii (payload secret : String) (t : Int) :
    ∀ c ∈ (computeSignature payload secret t).data, c.toNat < 128 :=
  hexStr_ascii _

/-! ## Helper lemmas: the digest comparison -/

theorem verifyDigest_ok_iff (payload secret : String) (t : Int) (sig : String) :
    verifyDigest payload secret t sig = .ok true ↔
      sig = computeSignature payload secret t := by
  simp only [verifyDigest]
  constructor
  · intro h
    split at h
    · exact absurd h (by simp)
    · split at h
      · exact absurd h (by simp)
      · rename_i hts
        have hbeq : (utf8Bytes (computeSignature payload secret t) == utf8Bytes sig) = true := by
          revert hts
          unfold timingSafeEqual
          cases utf8Bytes (computeSignature payload secret t) == utf8Bytes sig <;> simp
        exact (string_utf8_inj_of_ascii (computeSignature_ascii payload secret t)
          (eq_of_beq hbeq)).symm
  · intro h
    rw [h]
    simp [timingSafeEqual]

theorem verifyDigest_result (payload secret : String) (t : Int) (sig : String) :
    verifyDigest payload secret t sig = .ok true ∨
      verifyDigest payload secret t sig = .error .invalidSignature := by
  simp only [verifyDigest]
  split
  · exact .inr rfl
  · split
    · exact .inr rfl
    · exact .inl rfl

theorem verifyDigest_ne (payload secret : String) (t : Int) (sig : String)
    (h : sig ≠ computeSignature payload secret t) :
    verifyDigest payload secret t sig = .error .invalidSignature := by
  rcases verifyDigest_result payload secret t sig with hr | hr
  · exact absurd ((verifyDigest_ok_iff payload secret t sig).mp hr) h
  · exact hr

/-! ## Helper lemmas: `verifyWebhookSignature` -/

theorem verify_parse_error (payload header secret : String) (tolerance now : Int)
    (e : WebhookError) (hp : parseSignatureHeader header = .error e) :
    verifyWebhookSignature payload header secret tolerance now = .error e := by
  simp only [verifyWebhookSignature, hp]

theorem verify_eq_digest_of_fresh (payload header secret : String)
    (tolerance now t : Int) (sig : String)
    (hp : parseSignatureHeader header = .ok ⟨t, sig⟩)
    (hfresh : 0 < tolerance → now - t ≤ tolerance ∧ -tolerance ≤ now - t) :
    verifyWebhookSignature payload header secret tolerance now =
      verifyDigest payload secret t sig := by
  simp only [verifyWebhookSignature, hp]
  by_cases ht : 0 < tolerance
  · obtain ⟨h1, h2⟩ := hfresh ht
    rw [if_pos ht, if_neg (by omega), if_neg (by omega)]
  · rw [if_neg ht]

theorem verify_stale (payload header secret : String) (tolerance now t : Int) (sig : String)
    (hp : parseSignatureHeader header = .ok ⟨t, sig⟩)
    (ht : 0 < tolerance) (hage : tolerance < now - t) :
    verifyWebhookSignature payload header secret tolerance now =
      .error (.staleTimestamp (now - t) tolerance) := by
  simp only [verifyWebhookSignature, hp]
  rw [if_pos ht, if_pos hage]

theorem verify_future (payload header secret : String) (tolerance now t : Int) (sig : String)
    (hp : parseSignatureHeader header = .ok ⟨t, sig⟩)
    (ht : 0 < tolerance) (hage : now - t < -tolerance) :
    verifyWebhookSignature payload header secret tolerance now =
      .error .futureTimestamp := by
  simp only [verifyWebhookSignature, hp]
  rw [if_pos ht, if_neg (by omega), if_pos hage]

theorem verify_result_shape (payload header secret : String) (tolerance now : Int) :
    verifyWebhookSignature payload header secret tolerance now = .ok true ∨
      ∃ e, verifyWebhookSignature payload header secret tolerance now = .error e := by
  rcases hp : parseSignatureHeader header with e | ⟨t, sig⟩
  · exact .inr ⟨e, verify_parse_error payload header secret tolerance now e hp⟩
  · by_cases ht : 0 < tolerance
    · by_cases hst : tolerance < now - t
      · exact .inr ⟨_, verify_stale payload header secret tolerance now t sig hp ht hst⟩
      · by_cases hfu : now - t < -tolerance
        · exact .inr ⟨_, verify_future payload header secret tolerance now t sig hp ht hfu⟩
        · rw [verify_eq_digest_of_fresh payload header secret tolerance now t sig hp
            (fun _ => by omega)]
          rcases verifyDigest_result payload secret t sig with hr | hr
          · exact .inl hr
          · exact .inr ⟨_, hr⟩
    · rw [verify_eq_digest_of_fresh payload header secret tolerance now t sig hp
        (fun h => absurd h ht)]
      rcases verifyDigest_result payload secret t sig with hr | hr
      · exact .inl hr
      · exact .inr ⟨_, hr⟩

theorem verify_ok_true_iff (payload header secret : String) (tolerance now : Int) :
    verifyWebhookSignature payload header secret tolerance now = .ok true ↔
      ∃ t sig, parseSignatureHeader header = .ok ⟨t, sig⟩ ∧
        (0 < tolerance → now - t ≤ tolerance ∧ -tolerance ≤ now - t) ∧
        sig = computeSignature payload secret t := by
  constructor
  · intro h
    rcases hp : parseSignatureHeader header with e | ⟨t, sig⟩
    · rw [verify_parse_error payload header secret tolerance now e hp] at h
      exact absurd h (by simp)
    · refine ⟨t, sig, rfl, ?_, ?_⟩
      · intro ht
        constructor
        · by_contra hst
          rw [verify_stale payload header secret tolerance now t sig hp ht (by omega)] at h
          exact absurd h (by simp)
        · by_contra hfu
          rw [verify_future payload header secret tolerance now t sig hp ht (by omega)] at h
          exact absurd h (by simp)
      · by_cases ht : 0 < tolerance
        · have h1 : ¬ (tolerance < now - t) := by
            by_contra hst
            rw [verify_stale payload header secret tolerance now t sig hp ht (by omega)] at h
            exact absurd h (by simp)
          have h2 : ¬ (now - t < -tolerance) := by
            by_contra hfu
            rw [verify_future payload header secret tolerance now t sig hp ht (by omega)] at h
            exact absurd h (by simp)
          rw [verify_eq_digest_of_fresh payload header secret tolerance now t sig hp
            (fun _ => by omega)] at h
          exact (verifyDigest_ok_iff payload secret t sig).mp h
        · rw [verify_eq_digest_of_fresh payload header secret tolerance now t sig hp
            (fun hh => absurd hh ht)] at h
          exact (verifyDigest_ok_iff payload secret t sig).mp h
  · rintro ⟨t, sig, hp, hfresh, hd⟩
    rw [verify_eq_digest_of_fresh payload header secret tolerance now t sig hp hfresh]
    exact (verifyDigest_ok_iff payload secret t sig).mpr hd

/-! ## Claims C1, C5, C8, C9 (webhook verification) -/

/-- C1: for every payload, secret, and well-formed signature header whose
timestamp passes the freshness check, `verifyWebhookSignature` succeeds if
and only if the header's `v1` value equals the lowercase hex HMAC-SHA256
of `"<t>.<payload>"` keyed by the secret, for the `t` taken from that same
header; any mismatch fails with the invalid-signature error. -/
theorem verify_succeeds_iff_digest_matches
    (payload header secret : String) (tolerance now t : Int) (sig : String)
    (hp : parseSignatureHeader header = .ok ⟨t, sig⟩)
    (hfresh : 0 < tolerance → now - t ≤ tolerance ∧ -tolerance ≤ now - t) :
    (verifyWebhookSignature payload header secret tolerance now = .ok true ↔
      sig = computeSignature payload secret t) ∧
    (sig ≠ computeSignature payload secret t →
      verifyWebhookSignature payload header secret tolerance now =
        .error .invalidSignature) := by
  rw [verify_eq_digest_of_fresh payload header secret tolerance now t sig hp hfresh]
  exact ⟨verifyDigest_ok_iff payload secret t sig,
    fun h => verifyDigest_ne payload secret t sig h⟩

/-- C1 witness: a concrete header that parses with timestamp 5 and
passes the freshness check at `now = 5`, `tolerance = 300`. -/
theorem verify_succeeds_iff_digest_matches_witness :
    parseSignatureHeader "t=5,v1=ab" = .ok ⟨5, "ab"⟩ ∧
    ((verifyWebhookSignature "p" "t=5,v1=ab" "k" 300 5 = .ok true ↔
      "ab" = computeSignature "p" "k" 5) ∧
    ("ab" ≠ computeSignature "p" "k" 5 →
      verifyWebhookSignature "p" "t=5,v1=ab" "k" 300 5 = .error .invalidSignature)) :=
  ⟨rfl, verify_succeeds_iff_digest_matches "p" "t=5,v1=ab" "k" 300 5 5 "ab" rfl
    (fun _ => by omega)⟩

/-- C5: with tolerance `t > 0` and `age = now - headerTimestamp`,
verification fails with the stale error when `age > t` and with the
clock-skew error when `age < -t`, before any digest comparison; with
tolerance 0 both freshness checks are skipped, the result does not depend
on the clock at all, and a timestamp of any age is accepted exactly when
the signature matches. -/
theorem verify_freshness_window
    (payload header secret : String) (tolerance now t : Int) (sig : String)
    (hp : parseSignatureHeader header = .ok ⟨t, sig⟩) :
    (0 < tolerance → tolerance < now - t →
      verifyWebhookSignature payload header secret tolerance now =
        .error (.staleTimestamp (now - t) tolerance)) ∧
    (0 < tolerance → now - t < -tolerance →
      verifyWebhookSignature payload header secret tolerance now =
        .error .futureTimestamp) ∧
    (∀ now2, verifyWebhookSignature payload header secret 0 now =
      verifyWebhookSignature payload header secret 0 now2) ∧
    (verifyWebhookSignature payload header secret 0 now = .ok true ↔
      sig = computeSignature payload secret t) := by
  refine ⟨fun ht hage => verify_stale payload header secret tolerance now t sig hp ht hage,
    fun ht hage => verify_future payload header secret tolerance now t sig hp ht hage,
    fun now2 => ?_, ?_⟩
  · rw [verify_eq_digest_of_fresh payload header secret 0 now t sig hp (by omega),
      verify_eq_digest_of_fresh payload header secret 0 now2 t sig hp (by omega)]
  · rw [verify_eq_digest_of_fresh payload header secret 0 now t sig hp (by omega)]
    exact verifyDigest_ok_iff payload secret t sig

/-- C5 witness: a header with timestamp 5 checked at `now = 306` with
tolerance 300 (age 301) fails with the stale error. -/
theorem verify_freshness_window_witness :
    verifyWebhookSignature "p" "t=5,v1=ab" "k" 300 306 =
      .error (.staleTimestamp (306 - 5) 300) :=
  (verify_freshness_window "p" "t=5,v1=ab" "k" 300 306 5 "ab" rfl).1
    (by omega) (by omega)

/-- C8: `verifyWebhookSignature` never returns `false` — every result is
either `true` or a raised error — and it returns `true` exactly when
parsing, the freshness window, and the digest comparison all pass. -/
theorem verify_true_or_error (payload header secret : String) (tolerance now : Int) :
    (∀ b, verifyWebhookSignature payload header secret tolerance now = .ok b →
      b = true) ∧
    (verifyWebhookSignature payload header secret tolerance now = .ok true ↔
      ∃ t sig, parseSignatureHeader header = .ok ⟨t, sig⟩ ∧
        (0 < tolerance → now - t ≤ tolerance ∧ -tolerance ≤ now - t) ∧
        sig = computeSignature payload secret t) := by
  constructor
  · intro b hb
    rcases verify_result_shape payload header secret tolerance now with hr | ⟨e, hr⟩
    · rw [hr] at hb
      exact (Except.ok.injEq .. ▸ hb).symm
    · rw [hr] at hb
      exact absurd hb (by simp)
  · exact verify_ok_true_iff payload header secret tolerance now

/-- C9: when verification succeeds, `constructWebhookEvent` fails with
the invalid-payload error exactly on payloads that are not valid JSON —
never with a verification error — and returns the parsed event on
payloads that are. -/
theorem construct_event_after_verification
    (payload header secret : String) (tolerance now : Int)
    (hv : verifyWebhookSignature payload header secret tolerance now = .ok true) :
    (jsonParse payload = none →
      constructWebhookEvent payload header secret tolerance now =
        .error .invalidPayload) ∧
    (∀ v, jsonParse payload = some v →
      constructWebhookEvent payload header secret tolerance now = .ok v) := by
  constructor
  · intro hj
    simp only [constructWebhookEvent, hv, hj]
  · intro v hj
    simp only [constructWebhookEvent, hv, hj]

/-! ## Helper lemmas: the header-parsing loop -/

theorem tValues_cons (part : List Char) (rest : List (List Char)) :
    tValues (part :: rest) =
      if (headerKV part).1 = ['t'] then (headerKV part).2 :: tValues rest
      else tValues rest := by
  by_cases h : (headerKV part).1 = ['t'] <;> simp [tValues, List.filterMap_cons, h]

theorem v1Values_cons (part : List Char) (rest : List (List Char)) :
    v1Values (part :: rest) =
      if (headerKV part).1 = ['v', '1'] then (headerKV part).2 :: v1Values rest
      else v1Values rest := by
  by_cases h : (headerKV part).1 = ['v', '1'] <;> simp [v1Values, List.filterMap_cons, h]

theorem getLast?_mem {α : Type} {l : List α} {a : α} (h : l.getLast? = some a) :
    a ∈ l := by
  obtain ⟨hne, he⟩ := List.mem_getLast?_eq_getLast (Option.mem_def.mpr h)
  rw [he]
  exact List.getLast_mem hne

/-- The header loop, characterized: it throws the timestamp error exactly
when some `t`-keyed value fails `parseInt`, and otherwise ends with the
last `t` value (parsed) and the last `v1` value, falling back to the
initial accumulator values. -/
theorem parseHeaderLoop_eq :
    ∀ (parts : List (List Char)) (ts : Option Int) (sg : Option (List Char)),
      parseHeaderLoop parts ts sg =
        if (tValues parts).any (fun v => (jsParseInt10 v).isNone) = true then
          .error .invalidTimestamp
        else
          .ok ((tValues parts).getLast?.elim ts jsParseInt10,
            ((v1Values parts).getLast?).getD sg) := by
  intro parts
  induction parts with
  | nil =>
    intro ts sg
    simp [parseHeaderLoop, tValues, v1Values]
  | cons part rest ih =>
    intro ts sg
    by_cases hk : (headerKV part).1 = ['t']
    · have hk2 : ¬ ((headerKV part).1 = ['v', '1']) := by rw [hk]; decide
      rw [tValues_cons, if_pos hk, v1Values_cons, if_neg hk2]
      simp only [parseHeaderLoop, if_pos hk]
      cases hpi : jsParseInt10 (headerKV part).2 with
      | none => simp [List.any_cons, hpi]
      | some n =>
        change parseHeaderLoop rest (some n) sg = _
        rw [ih (some n) sg]
        have hisn : (jsParseInt10 (headerKV part).2).isNone = false := by
          rw [hpi]; rfl
        rw [List.any_cons, hisn, Bool.false_or]
        by_cases hany : (tValues rest).any (fun v => (jsParseInt10 v).isNone) = true
        · rw [if_pos hany, if_pos hany]
        · rw [if_neg hany, if_neg hany]
          cases htv : tValues rest with
          | nil => simp [hpi]
          | cons x xs =>
            rw [List.getLast?_cons_cons,
              List.getLast?_eq_getLast_of_ne_nil (List.cons_ne_nil x xs)]
            rfl
    · by_cases hk2 : (headerKV part).1 = ['v', '1']
      · rw [tValues_cons, if_neg hk, v1Values_cons, if_pos hk2]
        simp only [parseHeaderLoop, if_neg hk, if_pos hk2]
        rw [ih ts (headerKV part).2]
        by_cases hany : (tValues rest).any (fun v => (jsParseInt10 v).isNone) = true
        · rw [if_pos hany, if_pos hany]
        · rw [if_neg hany, if_neg hany]
          cases hv1 : v1Values rest with
          | nil => simp
          | cons x xs =>
            rw [List.getLast?_cons_cons,
              List.getLast?_eq_getLast_of_ne_nil (List.cons_ne_nil x xs)]
            rfl
      · rw [tValues_cons, if_neg hk, v1Values_cons, if_neg hk2]
        simp only [parseHeaderLoop, if_neg hk, if_neg hk2]
        exact ih ts sg

/-! ## Claim C4 (header parsing) -/

/-- C4 counterexample.  The claim says parsing fails exactly when the
header is empty, the `t=` component is missing or its value is not an
integer, or the `v1=` component is missing.  But (1) `"t=12x,v1=ab"` has
the non-integer `t` value `"12x"` and still parses (JavaScript `parseInt`
keeps the digit prefix `12`), and (2) `"t=5,v1="` has both components
present — the claim predicts success — yet parsing rejects the empty
`v1` value (`!signature` is true for the empty string). -/
theorem parseSignatureHeader_claim_counterexample :
    parseSignatureHeader "t=12x,v1=ab" = .ok ⟨12, "ab"⟩ ∧
    parseSignatureHeader "t=5,v1=" = .error .invalidFormat :=
  ⟨rfl, rfl⟩

/-- C4 amended: `parseSignatureHeader` fails exactly when the header is
empty, some `t=` component's value has no leading optionally-signed
integer (JavaScript `parseInt` yields `NaN`; trailing garbage after
digits is accepted), no `t=` component is present, or the last `v1=`
component's value is missing or empty (or no `v1=` component is present).
Unknown `key=value` components are ignored, and among duplicated keys the
last occurrence wins (for `t=`, provided every occurrence parses).  This
is stated as the equality of `parseSignatureHeader` with the
specification-shaped `parseHeaderSpec`. -/
theorem parseSignatureHeader_eq_spec (header : String) :
    parseSignatureHeader header = parseHeaderSpec header := by
  unfold parseSignatureHeader parseHeaderSpec
  by_cases hh : header = ""
  · rw [if_pos hh, if_pos hh]
  · rw [if_neg hh, if_neg hh]
    rw [parseHeaderLoop_eq]
    by_cases hany : (tValues (splitOnChar ',' header.data)).any
        (fun v => (jsParseInt10 v).isNone) = true
    · rw [if_pos hany, if_pos hany]
    · rw [if_neg hany, if_neg hany]
      cases htv : (tValues (splitOnChar ',' header.data)).getLast? with
      | none =>
        cases hv1 : (v1Values (splitOnChar ',' header.data)).getLast? with
        | none => rfl
        | some sv => cases sv <;> rfl
      | some tv =>
        have htm : tv ∈ tValues (splitOnChar ',' header.data) := getLast?_mem htv
        obtain ⟨n, hpi⟩ : ∃ n, jsParseInt10 tv = some n := by
          cases hj : jsParseInt10 tv with
          | none =>
            exact absurd (List.any_eq_true.mpr ⟨tv, htm, by rw [hj]; rfl⟩) hany
          | some n => exact ⟨n, rfl⟩
        cases hv1 : (v1Values (splitOnChar ',' header.data)).getLast? with
        | none => simp [hpi]
        | some sv =>
          cases sv with
          | none => simp [hpi]
          | some s =>
            by_cases hs : s = []
            · simp [hpi, hs]
            · simp [hpi, hs]

set_option maxRecDepth 200000 in
/-- C9 witness: a correctly signed payload (the `v1` value is the actual
HMAC-SHA256 of `"7.hello"` under secret `"s"`) that is not valid JSON
fails with the invalid-payload error. -/
theorem construct_event_after_verification_witness :
    constructWebhookEvent "hello"
      "t=7,v1=3fbc543def233d25f10dd64fe48ab05ce341c0916974e70d91c6239e4982f74b"
      "s" 0 0 = .error .invalidPayload :=
  (construct_event_after_verification "hello"
    "t=7,v1=3fbc543def233d25f10dd64fe48ab05ce341c0916974e70d91c6239e4982f74b"
    "s" 0 0 rfl).1 rfl

/-! ## Helper lemmas: the retry loop -/

theorem runLoop_sleeps_getD (attempts : Nat → AttemptOutcome) (maxRetries : Nat) :
    ∀ (rem attempt : Nat) (le : Option RequestFailure) (i : Nat),
      i < (runLoop attempts maxRetries attempt rem le).sleeps.length →
      (runLoop attempts maxRetries attempt rem le).sleeps.getD i 0 =
        getRetryDelay (attempt + i) := by
  intro rem
  induction rem with
  | zero =>
    intro a le i hi
    simp [runLoop] at hi
  | succ r ih =>
    intro a le i hi
    cases hc : classify (attempts a) with
    | success v => simp only [runLoop, hc] at hi; simp at hi
    | invalidResponse s => simp only [runLoop, hc] at hi; simp at hi
    | httpError s e =>
      simp only [runLoop, hc] at hi ⊢
      by_cases hcond : (isRetryable s && decide (a < maxRetries)) = true
      · rw [hcond] at hi ⊢
        simp only [if_true] at hi ⊢
        cases i with
        | zero => rw [List.getD_cons_zero, Nat.add_zero]
        | succ j =>
          rw [List.getD_cons_succ]
          rw [List.length_cons] at hi
          have := ih (a + 1) le j (by omega)
          rw [this]
          congr 1
          omega
      · rw [Bool.not_eq_true] at hcond
        rw [hcond] at hi
        simp at hi
    | timeout =>
      simp only [runLoop, hc] at hi ⊢
      by_cases hcond : a < maxRetries
      · rw [if_pos hcond] at hi ⊢
        cases i with
        | zero => rw [List.getD_cons_zero, Nat.add_zero]
        | succ j =>
          rw [List.getD_cons_succ]
          rw [List.length_cons] at hi
          have := ih (a + 1) (some (.api timeoutError)) j (by omega)
          rw [this]
          congr 1
          omega
      · rw [if_neg hcond] at hi
        simp at hi
    | netError m =>
      simp only [runLoop, hc] at hi ⊢
      by_cases hcond : a < maxRetries
      · rw [if_pos hcond] at hi ⊢
        cases i with
        | zero => rw [List.getD_cons_zero, Nat.add_zero]
        | succ j =>
          rw [List.getD_cons_succ]
          rw [List.length_cons] at hi
          have := ih (a + 1) (some (.plain m)) j (by omega)
          rw [this]
          congr 1
          omega
      · rw [if_neg hcond] at hi
        simp at hi

/-- One-step unfolding of the retry loop at a positive remaining count. -/
theorem runLoop_succ_eq (attempts : Nat → AttemptOutcome) (maxRetries a rem : Nat)
    (le : Option RequestFailure) :
    runLoop attempts maxRetries a (rem + 1) le =
      match classify (attempts a) with
      | .success v => ⟨.ok v, 1, []⟩
      | .invalidResponse status => ⟨.error (.api (invalidResponseError status)), 1, []⟩
      | .httpError status e =>
        if isRetryable status && decide (a < maxRetries) then
          let tail := runLoop attempts maxRetries (a + 1) rem le
          ⟨tail.result, tail.numAttempts + 1, getRetryDelay a :: tail.sleeps⟩
        else ⟨.error (.api e), 1, []⟩
      | .timeout =>
        if a < maxRetries then
          let tail := runLoop attempts maxRetries (a + 1) rem (some (.api timeoutError))
          ⟨tail.result, tail.numAttempts + 1, getRetryDelay a :: tail.sleeps⟩
        else ⟨.error (.api timeoutError), 1, []⟩
      | .netError m =>
        if a < maxRetries then
          let tail := runLoop attempts maxRetries (a + 1) rem (some (.plain m))
          ⟨tail.result, tail.numAttempts + 1, getRetryDelay a :: tail.sleeps⟩
        else ⟨.error (.plain m), 1, []⟩ := rfl

theorem runLoop_all_retry_fail (attempts : Nat → AttemptOutcome) (maxRetries : Nat)
    (hall : ∀ i, i ≤ maxRetries → RetryFailOutcome (attempts i)) :
    ∀ (r a : Nat) (le : Option RequestFailure), a + r = maxRetries →
      (runLoop attempts maxRetries a (r + 1) le).result
          = .error (surfacedFailure (attempts maxRetries)) ∧
      (runLoop attempts maxRetries a (r + 1) le).numAttempts = r + 1 := by
  intro r
  induction r with
  | zero =>
    intro a le ha
    have ha2 : a = maxRetries := by omega
    subst ha2
    rcases hall a (Nat.le_refl a) with ⟨s, b, ho, hs, hp⟩ | ho | ⟨m, ho⟩
    · obtain ⟨v, hv⟩ := Option.isSome_iff_exists.mp hp
      have hok : httpOk s = false := by
        rcases hs with h | h | h | h <;> subst h <;> rfl
      have hcl : classify (attempts a) = .httpError s (normalizeError s v) := by
        rw [ho]
        simp [classify, hv, hok]
      have hcond : (isRetryable s && decide (a < a)) = false := by simp
      rw [runLoop_succ_eq, hcl]
      simp only [hcond, Bool.false_eq_true, if_false]
      refine ⟨?_, trivial⟩
      rw [ho]
      simp [surfacedFailure, attemptError, hv]
    · have hcl : classify (attempts a) = .timeout := by rw [ho]; rfl
      rw [runLoop_succ_eq, hcl]
      simp only [Nat.lt_irrefl, if_false]
      refine ⟨?_, trivial⟩
      rw [ho]
      rfl
    · have hcl : classify (attempts a) = .netError m := by rw [ho]; rfl
      rw [runLoop_succ_eq, hcl]
      simp only [Nat.lt_irrefl, if_false]
      refine ⟨?_, trivial⟩
      rw [ho]
      rfl
  | succ r ih =>
    intro a le ha
    have halt : a < maxRetries := by omega
    rcases hall a (by omega) with ⟨s, b, ho, hs, hp⟩ | ho | ⟨m, ho⟩
    · obtain ⟨v, hv⟩ := Option.isSome_iff_exists.mp hp
      have hok : httpOk s = false := by
        rcases hs with h | h | h | h <;> subst h <;> rfl
      have hre : isRetryable s = true := by
        rcases hs with h | h | h | h <;> subst h <;> rfl
      have hcl : classify (attempts a) = .httpError s (normalizeError s v) := by
        rw [ho]
        simp [classify, hv, hok]
      have hcond : (isRetryable s && decide (a < maxRetries)) = true := by
        simp [hre, halt]
      rw [runLoop_succ_eq, hcl]
      simp only [hcond, if_true]
      obtain ⟨h1, h2⟩ := ih (a + 1) le (by omega)
      refine ⟨h1, ?_⟩
      show (runLoop attempts maxRetries (a + 1) (r + 1) le).numAttempts + 1 = r + 1 + 1
      rw [h2]
    · have hcl : classify (attempts a) = .timeout := by rw [ho]; rfl
      rw [runLoop_succ_eq, hcl]
      simp only [halt, if_true]
      obtain ⟨h1, h2⟩ := ih (a + 1) (some (.api timeoutError)) (by omega)
      refine ⟨h1, ?_⟩
      show (runLoop attempts maxRetries (a + 1) (r + 1)
        (some (.api timeoutError))).numAttempts + 1 = r + 1 + 1
      rw [h2]
    · have hcl : classify (attempts a) = .netError m := by rw [ho]; rfl
      rw [runLoop_succ_eq, hcl]
      simp only [halt, if_true]
      obtain ⟨h1, h2⟩ := ih (a + 1) (some (.plain m)) (by omega)
      refine ⟨h1, ?_⟩
      show (runLoop attempts maxRetries (a + 1) (r + 1)
        (some (.plain m))).numAttempts + 1 = r + 1 + 1
      rw [h2]

/-! ## Claims C2, C3, C6, C7 (request executor) -/

/-- C2: when every attempt fails retryably — an HTTP response with status
429, 500, 502 or 503 (with a well-formed or empty envelope body), a
timeout, or a transport error — the executor makes exactly
`maxRetries + 1` attempts and surfaces exactly the failure observed on
the final attempt (no intermediate failure is ever surfaced: the one
surfaced result is the last attempt's). -/
theorem retry_exhaustion_surfaces_last_failure (maxRetries : Nat)
    (attempts : Nat → AttemptOutcome)
    (hall : ∀ i, i ≤ maxRetries → RetryFailOutcome (attempts i)) :
    (runRequest maxRetries attempts).result =
      .error (surfacedFailure (attempts maxRetries)) ∧
    (runRequest maxRetries attempts).numAttempts = maxRetries + 1 :=
  runLoop_all_retry_fail attempts maxRetries hall maxRetries 0 none (by omega)

/-- C2 witness: three attempts (maxRetries = 2) all answering 503 with an
empty body exhaust the retries and surface the 503's normalized error. -/
theorem retry_exhaustion_surfaces_last_failure_witness :
    (runRequest 2 (fun _ => .response 503 "")).result =
      .error (surfacedFailure (.response 503 "")) ∧
    (runRequest 2 (fun _ => .response 503 "")).numAttempts = 3 :=
  retry_exhaustion_surfaces_last_failure 2 (fun _ => .response 503 "")
    (fun _ _ => Or.inl ⟨503, "", rfl, by omega, rfl⟩)

/-- C3 counterexample.  The claim says the pause inserted before attempt
`k` (0-indexed, `k ≥ 1`) is `min(1000·2^k, 10000)`.  In a run with
`maxRetries = 1` whose first attempt fails with a retryable 500, the one
pause — the pause before attempt 1 — is 1000 ms, but the claimed formula
gives `min(1000·2^1, 10000) = 2000` ms. -/
theorem backoff_delay_claim_counterexample :
    (runRequest 1 (fun _ => .response 500 "")).sleeps = [1000] ∧
    (1000 : Nat) ≠ min (1000 * 2 ^ 1) 10000 :=
  ⟨rfl, by decide⟩

/-- C3 amended: the pause inserted before attempt `k` (0-indexed,
`k ≥ 1`) — element `k - 1` of the sleep list — equals
`min(1000·2^(k-1), 10000)`: the delay is computed from the index of the
attempt that just failed, not of the upcoming one. -/
theorem backoff_delay_before_attempt (maxRetries : Nat)
    (attempts : Nat → AttemptOutcome) (k : Nat) (hk : 1 ≤ k)
    (hlen : k - 1 < (runRequest maxRetries attempts).sleeps.length) :
    (runRequest maxRetries attempts).sleeps.getD (k - 1) 0 =
      min (1000 * 2 ^ (k - 1)) 10000 := by
  unfold runRequest
  have h := runLoop_sleeps_getD attempts maxRetries (maxRetries + 1) 0 none (k - 1) hlen
  rw [h]
  simp [getRetryDelay]

/-- C3 amended, witness: in the counterexample run the pause before
attempt 1 is `min(1000·2^0, 10000) = 1000`. -/
theorem backoff_delay_before_attempt_witness :
    (runRequest 1 (fun _ => .response 500 "")).sleeps.getD 0 0 =
      min (1000 * 2 ^ 0) 10000 :=
  backoff_delay_before_attempt 1 (fun _ => .response 500 "") 1 (by omega) (by decide)

/-- C6: a request whose (first) response is a 4xx status other than 429
makes exactly one attempt, sleeps never, and immediately surfaces the
normalized error of that response. -/
theorem non_retryable_4xx_single_attempt (maxRetries : Nat)
    (attempts : Nat → AttemptOutcome) (s : Nat) (body : String)
    (h0 : attempts 0 = .response s body) (h4 : 400 ≤ s) (h5 : s < 500)
    (h429 : s ≠ 429) :
    (runRequest maxRetries attempts).result = .error (.api (attemptError s body)) ∧
    (runRequest maxRetries attempts).numAttempts = 1 ∧
    (runRequest maxRetries attempts).sleeps = [] := by
  have hok : httpOk s = false := by
    simp only [httpOk, Bool.and_eq_false_iff, decide_eq_false_iff_not]
    omega
  have hre : isRetryable s = false := by
    simp only [isRetryable, Bool.or_eq_false_iff, Bool.and_eq_false_iff,
      beq_eq_false_iff_ne, ne_eq, decide_eq_false_iff_not]
    omega
  unfold runRequest
  rw [runLoop_succ_eq]
  cases hpb : parsedBody body with
  | none =>
    have hcl : classify (attempts 0) = .invalidResponse s := by
      rw [h0]
      simp [classify, hpb]
    rw [hcl]
    exact ⟨by simp [attemptError, hpb], rfl, rfl⟩
  | some v =>
    have hcl : classify (attempts 0) = .httpError s (normalizeError s v) := by
      rw [h0]
      simp [classify, hpb, hok]
    rw [hcl]
    simp only [hre, Bool.false_and, Bool.false_eq_true, if_false]
    exact ⟨by simp [attemptError, hpb], by trivial, by trivial⟩

/-- C6 witness: a 404 with empty body fails after exactly one attempt
with the default-normalized envelope error and no sleep. -/
theorem non_retryable_4xx_single_attempt_witness :
    (runRequest 3 (fun _ => .response 404 "")).result =
      .error (.api (attemptError 404 "")) ∧
    (runRequest 3 (fun _ => .response 404 "")).numAttempts = 1 ∧
    (runRequest 3 (fun _ => .response 404 "")).sleeps = [] :=
  non_retryable_4xx_single_attempt 3 (fun _ => .response 404 "") 404 ""
    rfl (by omega) (by omega) (by omega)

/-- C7: (1) an empty response body on a 2xx response is treated as the
empty object and is not an error; (2) a non-empty body that is not valid
JSON fails immediately with the `INVALID_RESPONSE` error carrying the
returned HTTP status — one attempt, no sleep — for every status,
including statuses that would otherwise be retryable. -/
theorem body_parsing_policy :
    (∀ (maxRetries : Nat) (attempts : Nat → AttemptOutcome) (s : Nat),
      attempts 0 = .response s "" → httpOk s = true →
      (runRequest maxRetries attempts).result = .ok (.obj []) ∧
      (runRequest maxRetries attempts).numAttempts = 1) ∧
    (∀ (maxRetries : Nat) (attempts : Nat → AttemptOutcome) (s : Nat) (body : String),
      attempts 0 = .response s body → body ≠ "" → jsonParse body = none →
      (runRequest maxRetries attempts).result =
        .error (.api (invalidResponseError s)) ∧
      (runRequest maxRetries attempts).numAttempts = 1 ∧
      (runRequest maxRetries attempts).sleeps = []) := by
  constructor
  · intro maxRetries attempts s h0 hok
    have hcl : classify (attempts 0) = .success (.obj []) := by
      rw [h0]
      simp [classify, parsedBody, hok]
    unfold runRequest
    rw [runLoop_succ_eq, hcl]
    exact ⟨rfl, rfl⟩
  · intro maxRetries attempts s body h0 hne hj
    have hcl : classify (attempts 0) = .invalidResponse s := by
      rw [h0]
      simp [classify, parsedBody, hne, hj]
    unfold runRequest
    rw [runLoop_succ_eq, hcl]
    exact ⟨rfl, rfl, rfl⟩

/-- C7 witness: a 200 with empty body returns the empty object in one
attempt; a 500 — a status that would otherwise retry — with the
unparseable body `"x"` fails at once with `INVALID_RESPONSE`, one
attempt, no sleep. -/
theorem body_parsing_policy_witness :
    ((runRequest 3 (fun _ => .response 200 "")).result = .ok (.obj []) ∧
     (runRequest 3 (fun _ => .response 200 "")).numAttempts = 1) ∧
    ((runRequest 2 (fun _ => .response 500 "x")).result =
        .error (.api (invalidResponseError 500)) ∧
     (runRequest 2 (fun _ => .response 500 "x")).numAttempts = 1 ∧
     (runRequest 2 (fun _ => .response 500 "x")).sleeps = []) :=
  ⟨body_parsing_policy.1 3 (fun _ => .response 200 "") 200 rfl rfl,
   body_parsing_policy.2 2 (fun _ => .response 500 "x") 500 "x" rfl
     (by decide) rfl⟩

/-! ## Claim C10 (client construction) -/

/-- C10: a falsy `timeout`, `maxRetries` or `baseUrl` (omitted or zero /
empty string) is silently replaced by the default (30000 ms, 3 retries,
the production origin) — so a zero timeout or zero retries cannot be
configured — and supplying both credentials is accepted, with
`accessToken` winning for the Bearer header. -/
theorem config_falsy_defaults :
    (∀ (config : WorkbenchConfig) (st : ClientState),
      mkWorkbenchClient config = .ok st →
      ((config.timeout = none ∨ config.timeout = some 0) → st.timeout = 30000) ∧
      ((config.maxRetries = none ∨ config.maxRetries = some 0) → st.maxRetries = 3) ∧
      ((config.baseUrl = none ∨ config.baseUrl = some "") →
        st.baseUrl = "https://api.tryworkbench.app")) ∧
    (∀ (config : WorkbenchConfig) (k a : String),
      config.apiKey = some k → config.accessToken = some a → a ≠ "" →
      ∃ st, mkWorkbenchClient config = .ok st ∧ st.authHeader = "Bearer " ++ a) := by
  constructor
  · intro config st hmk
    unfold mkWorkbenchClient at hmk
    split at hmk
    · exact absurd hmk (by simp)
    · have hst := (Except.ok.injEq .. ▸ hmk)
      refine ⟨fun ht => ?_, fun hm => ?_, fun hb => ?_⟩
      · rw [← hst]
        rcases ht with h | h <;> rw [h] <;> rfl
      · rw [← hst]
        rcases hm with h | h <;> rw [h] <;> rfl
      · rw [← hst]
        rcases hb with h | h <;> rw [h] <;> rfl
  · intro config k a hk ha hane
    have htr : truthyStr config.accessToken = true := by
      rw [ha]
      simpa [truthyStr] using hane
    have hcond : (!truthyStr config.apiKey && !truthyStr config.accessToken) = false := by
      rw [htr]
      simp
    refine ⟨{ baseUrl := orElseStr config.baseUrl "https://api.tryworkbench.app"
              timeout := orElseNat config.timeout 30000
              maxRetries := orElseNat config.maxRetries 3
              authHeader := "Bearer " ++
                orElseStr config.accessToken (orElseStr config.apiKey "") }, ?_, ?_⟩
    · unfold mkWorkbenchClient
      simp only [hcond, Bool.false_eq_true, if_false]
    · show "Bearer " ++ orElseStr config.accessToken (orElseStr config.apiKey "") =
        "Bearer " ++ a
      rw [ha]
      simp [orElseStr, hane]

/-- C10 witness: a config with both credentials, `timeout = 0`,
`maxRetries = 0` and no `baseUrl` constructs a client with the defaults
30000 / 3 / production origin and `accessToken` in the Bearer header. -/
theorem config_falsy_defaults_witness :
    mkWorkbenchClient ⟨some "key", some "tok", none, some 0, some 0⟩ =
      .ok ⟨"https://api.tryworkbench.app", 30000, 3, "Bearer tok"⟩ ∧
    ((⟨some "key", some "tok", none, some 0, some 0⟩ :
        WorkbenchConfig).timeout = some 0 →
      (⟨"https://api.tryworkbench.app", 30000, 3, "Bearer tok"⟩ :
        ClientState).timeout = 30000) ∧
    (∃ st, mkWorkbenchClient ⟨some "key", some "tok", none, some 0, some 0⟩ =
      .ok st ∧ st.authHeader = "Bearer " ++ "tok") :=
  ⟨rfl,
   fun _ => ((config_falsy_defaults.1 ⟨some "key", some "tok", none, some 0, some 0⟩
     ⟨"https://api.tryworkbench.app", 30000, 3, "Bearer tok"⟩ rfl).1 (Or.inr rfl)),
   config_falsy_defaults.2 ⟨some "key", some "tok", none, some 0, some 0⟩
     "key" "tok" rfl rfl (by decide)⟩

end WorkbenchSDK
